import Mathlib

/-!
Verification development for the RTSP stream-session lifecycle manager
(`src/server.js`). The JavaScript source is shallowly embedded: JS strings
for label/notes are modelled as `List Char` (so `trim`/`slice` become list
operations), request-body values as the `JSVal` sum (JS is dynamically
typed), the in-memory `savedStreams` array as a `List SavedStream`, the
`activeStreams` map together with the relevant filesystem facts as a
`ServerState`, and the per-start-request closure (`responded`, `pollTimer`,
`timeoutTimer`, the `finalize` helper and the event handlers racing on it)
as an explicit state machine over `StartReqState`.
-/

namespace RTSPDeck

/-- Value of a field read from a JSON request body: JavaScript is
dynamically typed, so `sanitizeText` can receive any of these shapes. -/
inductive JSVal where
  | jsUndefined : JSVal
  | jsNull : JSVal
  | jsBool : Bool → JSVal
  | jsNum : Int → JSVal
  | jsStr : List Char → JSVal
deriving Repr, DecidableEq

/-- Model of JavaScript `String.prototype.trim`: drop trailing whitespace
(via reverse), then drop leading whitespace. -/
def jsTrim (s : List Char) : List Char :=
  ((s.reverse.dropWhile Char.isWhitespace).reverse).dropWhile Char.isWhitespace

/-- Embedding of `sanitizeText(value, maxLength)` from src/server.js:
non-strings become `''`; strings are trimmed and then sliced to
`maxLength` when the trimmed form is longer than that. -/
def sanitizeText (value : JSVal) (maxLength : Nat) : List Char :=
  match value with
  | .jsStr s =>
      let trimmed := jsTrim s
      if trimmed.length > maxLength then trimmed.take maxLength else trimmed
  | _ => []

/-- One `{ fileName, capturedAt }` entry of a saved stream's screenshot
history. -/
structure ScreenshotRecord where
  fileName : String
  capturedAt : String
deriving Repr, DecidableEq

/-- One record of the `savedStreams` array (a `SavedSourceRecord`): the
records constructed by `upsertSavedStream`, `addScreenshotRecord` and the
`/saved-streams/update` route. `lastStreamId`/`lastStartedAt` are nullable
(`null` when the record was created by a metadata-only update). -/
structure SavedStream where
  rtspUrl : String
  lastStreamId : Option String
  lastStartedAt : Option String
  label : List Char
  notes : List Char
  screenshots : List ScreenshotRecord
deriving Repr, DecidableEq

/-- Embedding of `upsertSavedStream(rtspUrl, streamId, metadata)`:
`savedStreams.find` locates the first record with this URL and mutates it
in place (always refreshing `lastStreamId`/`lastStartedAt`, overwriting
`label`/`notes` only when the sanitized input is truthy, i.e. non-empty);
otherwise a fresh record is pushed at the end. `now` stands for
`new Date().toISOString()`. -/
def upsertSavedStream (url sid now : String) (mlabel mnotes : JSVal) :
    List SavedStream → List SavedStream
  | [] =>
      [{ rtspUrl := url, lastStreamId := some sid, lastStartedAt := some now,
         label := sanitizeText mlabel 60, notes := sanitizeText mnotes 280,
         screenshots := [] }]
  | r :: rest =>
      if r.rtspUrl = url then
        { r with
          lastStreamId := some sid
          lastStartedAt := some now
          label := if sanitizeText mlabel 60 = [] then r.label else sanitizeText mlabel 60
          notes := if sanitizeText mnotes 280 = [] then r.notes else sanitizeText mnotes 280
        } :: rest
      else
        r :: upsertSavedStream url sid now mlabel mnotes rest

/-- Embedding of the truncation step of `addScreenshotRecord`:
`if (screenshots.length > 20) screenshots.length = 20`. -/
def capScreenshots (l : List ScreenshotRecord) : List ScreenshotRecord :=
  if l.length > 20 then l.take 20 else l

/-- Embedding of `addScreenshotRecord(rtspUrl, streamId, fileName)`: find
or create the record for the URL, `unshift` the new screenshot (newest
first) and truncate the array to 20 entries. -/
def addScreenshotRecord (url sid fn now : String) :
    List SavedStream → List SavedStream
  | [] =>
      [{ rtspUrl := url, lastStreamId := some sid, lastStartedAt := some now,
         label := [], notes := [],
         screenshots := capScreenshots [{ fileName := fn, capturedAt := now }] }]
  | r :: rest =>
      if r.rtspUrl = url then
        { r with screenshots :=
            capScreenshots ({ fileName := fn, capturedAt := now } :: r.screenshots) } :: rest
      else
        r :: addScreenshotRecord url sid fn now rest

/-- Embedding of the body of the `/saved-streams/update` route (after the
missing-URL check): create-if-absent, otherwise replace `label`/`notes`
unconditionally with the sanitized values. -/
def updateMetadataOnly (url : String) (mlabel mnotes : JSVal) :
    List SavedStream → List SavedStream
  | [] =>
      [{ rtspUrl := url, lastStreamId := none, lastStartedAt := none,
         label := sanitizeText mlabel 60, notes := sanitizeText mnotes 280,
         screenshots := [] }]
  | r :: rest =>
      if r.rtspUrl = url then
        { r with
          label := sanitizeText mlabel 60
          notes := sanitizeText mnotes 280 } :: rest
      else
        r :: updateMetadataOnly url mlabel mnotes rest

/-- Response of the `/saved-streams/update` route. -/
inductive UpdateResp where
  | badRequest : UpdateResp
  | success : UpdateResp
deriving Repr, DecidableEq

/-- Embedding of the `/saved-streams/update` route: a falsy `rtspUrl`
(modelled as the empty string) is rejected with 400 before any mutation;
otherwise the update always succeeds. -/
def savedStreamsUpdateRoute (url : String) (mlabel mnotes : JSVal)
    (st : List SavedStream) : List SavedStream × UpdateResp :=
  if url = "" then (st, .badRequest)
  else (updateMetadataOnly url mlabel mnotes st, .success)

/-- Value of one `activeStreams` entry (the fields the stop/screenshot
paths observe; timers of the start request are modelled separately in
`StartReqState`). -/
structure StreamInfo where
  rtspUrl : String
deriving Repr, DecidableEq

/-- Lookup in a JS `Map` modelled as an association list with unique keys
(`activeStreams.get`). -/
def mapGet {α : Type} (m : List (String × α)) (k : String) : Option α :=
  (m.find? (fun p => p.1 == k)).map (fun p => p.2)

/-- Global server state observed by the stop and screenshot paths: the
`activeStreams` map, which stream work directories exist, which playlist
files (`outputManifestPath`) exist inside them, and the in-memory
`savedStreams` metadata store. -/
structure ServerState where
  active : List (String × StreamInfo)
  dirs : List String
  playlists : List String
  saved : List SavedStream
deriving Repr, DecidableEq

/-- Embedding of `cleanupStream(streamId)`: when the id is registered,
kill the process (the handle leaves the observable state with the entry),
remove the work directory recursively (which also deletes the playlist
inside it), and delete the registry entry; otherwise do nothing. -/
def cleanupStream (sid : String) (st : ServerState) : ServerState :=
  match mapGet st.active sid with
  | some _ =>
      { st with
        active := st.active.filter (fun p => p.1 != sid)
        dirs := st.dirs.filter (fun d => d != sid)
        playlists := st.playlists.filter (fun d => d != sid) }
  | none => st

/-- Response of the `/stop-stream/:streamId` route. -/
inductive StopResp where
  | success : StopResp
  | notFound : StopResp
deriving Repr, DecidableEq

/-- Embedding of the `/stop-stream/:streamId` route: cleanup plus success
when the id is registered, 404 otherwise. -/
def stopStreamRoute (sid : String) (st : ServerState) : ServerState × StopResp :=
  if (mapGet st.active sid).isSome then (cleanupStream sid st, .success)
  else (st, .notFound)

/-- Model of the JS timestamp sanitizer `replace(/[:.]/g, '-')` used for
capture file names. -/
def fsSafeTimestamp (ts : String) : String :=
  ts.map (fun c => if c = ':' || c = '.' then '-' else c)

/-- Capture file name `streamId-timestamp.jpg` built by the screenshot
route. -/
def captureFileName (sid ts : String) : String :=
  sid ++ "-" ++ fsSafeTimestamp ts ++ ".jpg"

/-- Response of the `/screenshot/:streamId` route. -/
inductive CaptureResp where
  | notFound : CaptureResp
  | notReady : CaptureResp
  | captureFailed : CaptureResp
  | ok : String → CaptureResp
deriving Repr, DecidableEq

/-- Embedding of the `/screenshot/:streamId` route: 404 when the id is
unknown, 400 when the session's playlist does not exist yet, and otherwise
a one-shot extraction process whose outcome is the external parameter
`extractOk`; only the success path appends a screenshot record. `ts` is
the timestamp used for the file name, `now` the one taken inside
`addScreenshotRecord`. -/
def screenshotRoute (sid ts now : String) (extractOk : Bool)
    (st : ServerState) : ServerState × CaptureResp :=
  match mapGet st.active sid with
  | none => (st, .notFound)
  | some info =>
      if sid ∈ st.playlists then
        if extractOk then
          ({ st with saved :=
              addScreenshotRecord info.rtspUrl sid (captureFileName sid ts) now st.saved },
            .ok (captureFileName sid ts))
        else (st, .captureFailed)
      else (st, .notReady)

/-- State of the external transcoding process handle, as far as
`kill('SIGTERM')` can observe it. -/
inductive ProcState where
  | alive : ProcState
  | exited : ProcState
deriving Repr, DecidableEq

/-- Modelled from the spec: `terminate(handle)` of the Process Supervisor
(§4.3), realised in the source by Node's `ChildProcess.kill('SIGTERM')`,
whose implementation is outside the repository. It requests termination;
signalling an already-exited process is a no-op and never an error. -/
def terminate (p : ProcState) : ProcState :=
  match p with
  | .alive => .exited
  | .exited => .exited

/-- JSON-ish value as produced by `JSON.parse`, extended with `undefined`
for the result of reading an absent object property. -/
inductive JVal where
  | jsu : JVal
  | null : JVal
  | bool : Bool → JVal
  | num : Int → JVal
  | str : String → JVal
  | arr : List JVal → JVal
  | obj : List (String × JVal) → JVal

/-- JavaScript truthiness of a `JVal` (used by `stream.label || ''`). -/
def jTruthy (v : JVal) : Bool :=
  match v with
  | .jsu => false
  | .null => false
  | .bool b => b
  | .num n => n != 0
  | .str s => s != ""
  | .arr _ => true
  | .obj _ => true

/-- Property read `v[k]` in JavaScript: throws a TypeError on `null` or
`undefined`, yields `undefined` on other non-objects and on a missing key,
and the stored value otherwise. -/
def getField (v : JVal) (k : String) : Except Unit JVal :=
  match v with
  | .jsu => .error ()
  | .null => .error ()
  | .obj fields =>
      match fields.find? (fun p => p.1 == k) with
      | some p => .ok p.2
      | none => .ok .jsu
  | _ => .ok .jsu

/-- One element of the list returned by `loadSavedStreams`: the
normalized shape built in its `parsed.map` callback. The persisted file is
untrusted, so every field is a raw JSON value except `screenshots`, which
is forced to an array. -/
structure LoadedStream where
  rtspUrl : JVal
  lastStreamId : JVal
  lastStartedAt : JVal
  label : JVal
  notes : JVal
  screenshots : List JVal

/-- The `parsed.map` callback of `loadSavedStreams`: copy
`rtspUrl`/`lastStreamId`/`lastStartedAt` as read, default `label`/`notes`
to `''` when falsy, and force `screenshots` to an array. Reading a
property of a `null` array element throws (caught by the caller). -/
def normalizeStream (v : JVal) : Except Unit LoadedStream := do
  let url ← getField v "rtspUrl"
  let lsid ← getField v "lastStreamId"
  let lsat ← getField v "lastStartedAt"
  let lab ← getField v "label"
  let nts ← getField v "notes"
  let shots ← getField v "screenshots"
  return { rtspUrl := url, lastStreamId := lsid, lastStartedAt := lsat,
           label := if jTruthy lab then lab else .str "",
           notes := if jTruthy nts then nts else .str "",
           screenshots := match shots with | .arr l => l | _ => [] }

/-- Observable state of the durable saved-streams file when
`loadSavedStreams` runs: absent, unreadable-or-unparseable (read or
`JSON.parse` throws), or successfully parsed JSON. -/
inductive Storage where
  | missing : Storage
  | corrupt : Storage
  | json : JVal → Storage

/-- Embedding of `loadSavedStreams()`: `[]` when the file is missing; the
whole read/parse/normalize pipeline sits in a `try` whose `catch` returns
`[]`; a parse result that is not an array also yields `[]`. -/
def loadSavedStreams (s : Storage) : List LoadedStream :=
  match s with
  | .missing => []
  | .corrupt => []
  | .json v =>
      match v with
      | .arr l =>
          match l.mapM normalizeStream with
          | .ok rs => rs
          | .error _ => []
      | _ => []

/-- Outcome carried by one invocation of the start request's response
callback (`finalize`): the 200 success or one of the three 500 errors. -/
inductive StartOutcome where
  | ready : StartOutcome
  | failed : StartOutcome
  | ended : StartOutcome
  | timedOut : StartOutcome
deriving Repr, DecidableEq

/-- State of one pending `/start-stream` request and its session: the
closure variables `responded`, `pollTimer`, `timeoutTimer` (armed flags),
whether the registry still holds the id, whether the work directory and
the playlist exist, whether the ffmpeg process is alive, and the log of
responses actually sent on the start request and on stop requests. -/
structure StartReqState where
  responded : Bool
  pollArmed : Bool
  deadlineArmed : Bool
  registered : Bool
  dirExists : Bool
  playlistExists : Bool
  processAlive : Bool
  responses : List StartOutcome
  stopResponses : List StopResp
deriving Repr, DecidableEq

/-- Embedding of the `finalize(status, payload)` closure: a no-op when
`responded` is already set; otherwise set it, clear both timers and send
the response. -/
def finalize (o : StartOutcome) (s : StartReqState) : StartReqState :=
  if s.responded then s
  else
    { s with
      responded := true
      pollArmed := false
      deadlineArmed := false
      responses := s.responses ++ [o] }

/-- Effect of `cleanupStream(streamId)` on this session, as seen from the
start request's state: when registered, kill the process, remove the work
directory (and the playlist inside it) and evict the registry entry. Note
that it touches neither `responded` nor the two timers. -/
def cleanupLocal (s : StartReqState) : StartReqState :=
  if s.registered then
    { s with
      processAlive := false
      dirExists := false
      playlistExists := false
      registered := false }
  else s

/-- Events that can be scheduled onto the single-threaded event loop for
one start request: a poll-interval tick, the process `error` and `end`
events, the startup-deadline timer, an explicit stop request, and the
external fact that ffmpeg created the playlist file. -/
inductive StartEv where
  | pollTick : StartEv
  | procError : StartEv
  | procEnd : StartEv
  | deadline : StartEv
  | stopReq : StartEv
  | manifestAppears : StartEv
deriving Repr, DecidableEq

/-- One step of the event loop, following the handlers in
`/start-stream` and `/stop-stream`: a cleared interval or timeout no
longer fires (`pollArmed`/`deadlineArmed` guards); the poll responds
success only when the playlist exists; `error`, `end` and the deadline
run cleanup and then `finalize` a 500; a stop request runs cleanup and
answers on its own response channel. -/
def stepStart (s : StartReqState) (e : StartEv) : StartReqState :=
  match e with
  | .pollTick =>
      if s.pollArmed then
        if s.playlistExists then finalize .ready s else s
      else s
  | .procError => finalize .failed (cleanupLocal s)
  | .procEnd => finalize .ended (cleanupLocal s)
  | .deadline =>
      if s.deadlineArmed then finalize .timedOut (cleanupLocal s) else s
  | .stopReq =>
      if s.registered then
        { cleanupLocal s with stopResponses := s.stopResponses ++ [.success] }
      else
        { s with stopResponses := s.stopResponses ++ [.notFound] }
  | .manifestAppears =>
      if s.dirExists && s.processAlive then { s with playlistExists := true } else s

/-- Folding a sequence of event-loop steps. -/
def runStart (s : StartReqState) (evs : List StartEv) : StartReqState :=
  evs.foldl stepStart s

/-- State of a start request right after the route handler returns:
nothing sent, both timers armed, session registered, directory created,
process spawned; `manifest` says whether the playlist file already
exists. -/
def initStart (manifest : Bool) : StartReqState :=
  { responded := false, pollArmed := true, deadlineArmed := true,
    registered := true, dirExists := true, playlistExists := manifest,
    processAlive := true, responses := [], stopResponses := [] }

/-- Response produced by each of the four racing triggers when it is the
first to fire. -/
def trigOutcome (e : StartEv) : StartOutcome :=
  match e with
  | .pollTick => .ready
  | .procError => .failed
  | .procEnd => .ended
  | .deadline => .timedOut
  | .stopReq => .ready
  | .manifestAppears => .ready

/-- Bounded-length well-formedness of the stored metadata: every record's
label is at most 60 characters and its notes at most 280. -/
def labelNotesBounded (st : List SavedStream) : Bool :=
  st.all (fun r => r.label.length ≤ 60 && r.notes.length ≤ 280)

/-- Screenshot-cap well-formedness: every record holds at most 20
screenshots. -/
def screensBounded (st : List SavedStream) : Bool :=
  st.all (fun r => r.screenshots.length ≤ 20)

/-- Store obtained by 25 successive `addScreenshotRecord` calls for one
URL, starting from an empty store; call `i` uses `Nat.repr i` as file
name and timestamp. -/
def iter25 : List SavedStream :=
  (List.range 25).foldl
    (fun st i => addScreenshotRecord "rtsp://cam" "sid" (Nat.repr i) (Nat.repr i) st) []

/-- A 62-character label whose 60-character prefix ends in a space: 59
letters, a space, then two more letters. -/
def overlongLabel : List Char :=
  List.replicate 59 'a' ++ [' ', 'b', 'b']

/-- Response-uniqueness invariant of a pending start request: nothing is
sent before `responded` is set, and never more than one response. -/
def respInv (s : StartReqState) : Prop :=
  (s.responded = false → s.responses = []) ∧ s.responses.length ≤ 1

/-- Sanitized text never exceeds the requested bound. -/
theorem sanitizeText_length_le (v : JSVal) (n : Nat) :
    (sanitizeText v n).length ≤ n := by
  cases v with
  | jsStr s =>
      unfold sanitizeText
      by_cases h : (jsTrim s).length > n
      · simp [h, List.length_take]
      · simp [h]; omega
  | jsUndefined => simp [sanitizeText]
  | jsNull => simp [sanitizeText]
  | jsBool b => simp [sanitizeText]
  | jsNum i => simp [sanitizeText]

/-- The empty string sanitizes to the empty string. -/
theorem sanitizeText_emptyStr (n : Nat) : sanitizeText (.jsStr []) n = [] := by
  simp [sanitizeText, jsTrim]

/-- The head surviving a `dropWhile` fails the predicate. -/
theorem dropWhile_head_false {α : Type} (p : α → Bool) :
    ∀ (l : List α) (c : α) (cs : List α), l.dropWhile p = c :: cs → p c = false := by
  intro l
  induction l with
  | nil => intro c cs h; simp [List.dropWhile] at h
  | cons a t ih =>
      intro c cs h
      by_cases hp : p a
      · rw [List.dropWhile_cons_of_pos hp] at h
        exact ih c cs h
      · rw [List.dropWhile_cons_of_neg hp] at h
        cases h
        simpa using hp

/-- A nonempty `take` starts with the head of the original list. -/
theorem take_head {α : Type} (l : List α) (n : Nat) (c : α) (cs : List α)
    (h : l.take n = c :: cs) : l.head? = some c := by
  cases l with
  | nil => simp at h
  | cons a t =>
      cases n with
      | zero => simp at h
      | succ m =>
          rw [List.take_succ_cons] at h
          cases h
          rfl

/-- Unfolding lemma for `mapGet` on a cons cell. -/
theorem mapGet_cons {α : Type} (x : String × α) (t : List (String × α)) (k : String) :
    mapGet (x :: t) k = if x.1 == k then some x.2 else mapGet t k := by
  cases h : (x.1 == k) <;> simp [mapGet, List.find?, h]

/-- Filtering out a key makes it unfindable. -/
theorem mapGet_filter_ne {α : Type} (m : List (String × α)) (k : String) :
    mapGet (m.filter (fun p => p.1 != k)) k = none := by
  induction m with
  | nil => rfl
  | cons a t ih =>
      by_cases h : a.1 == k
      · have hb : (a.1 != k) = false := by simp [bne, h]
        simp [List.filter_cons, hb, ih]
      · have hb : (a.1 != k) = true := by simp [bne, h]
        simp [List.filter_cons, hb, mapGet_cons, h, ih]

/-- Filtering out an element makes it a non-member. -/
theorem not_mem_filter_ne (l : List String) (k : String) :
    k ∉ l.filter (fun d => d != k) := by
  intro h
  have h2 := List.mem_filter.1 h
  simp at h2

/-- The screenshot truncation is exactly `take 20`. -/
theorem capScreenshots_eq_take (l : List ScreenshotRecord) :
    capScreenshots l = l.take 20 := by
  unfold capScreenshots
  by_cases h : l.length > 20
  · simp [h]
  · simp [h]
    omega

/-- The screenshot truncation always yields at most 20 records. -/
theorem capScreenshots_length_le (l : List ScreenshotRecord) :
    (capScreenshots l).length ≤ 20 := by
  unfold capScreenshots
  by_cases h : l.length > 20
  · simp [h, List.length_take]
  · simp [h]
    omega

/-- Once a start request has responded, no later event changes the
response log or resets the flag. -/
theorem stepStart_responded (s : StartReqState) (e : StartEv)
    (h : s.responded = true) :
    (stepStart s e).responses = s.responses ∧ (stepStart s e).responded = true := by
  cases e with
  | pollTick =>
      by_cases h1 : s.pollArmed <;> by_cases h2 : s.playlistExists <;>
        simp [stepStart, finalize, h, h1, h2]
  | procError =>
      by_cases hr : s.registered <;> simp [stepStart, finalize, cleanupLocal, h, hr]
  | procEnd =>
      by_cases hr : s.registered <;> simp [stepStart, finalize, cleanupLocal, h, hr]
  | deadline =>
      by_cases hd : s.deadlineArmed <;> by_cases hr : s.registered <;>
        simp [stepStart, finalize, cleanupLocal, h, hd, hr]
  | stopReq =>
      by_cases hr : s.registered <;> simp [stepStart, cleanupLocal, h, hr]
  | manifestAppears =>
      by_cases h1 : s.dirExists && s.processAlive <;> simp [stepStart, h, h1]

/-- Once responded, a whole event sequence leaves the responses alone. -/
theorem runStart_responded (evs : List StartEv) :
    ∀ s : StartReqState, s.responded = true →
      (runStart s evs).responses = s.responses := by
  induction evs with
  | nil => intro s _; rfl
  | cons e t ih =>
      intro s h
      have hs := stepStart_responded s e h
      show (runStart (stepStart s e) t).responses = s.responses
      rw [ih _ hs.2, hs.1]

/-- The `finalize` helper preserves the response-uniqueness invariant. -/
theorem finalize_respInv (o : StartOutcome) (s : StartReqState)
    (h : respInv s) : respInv (finalize o s) := by
  by_cases hr : s.responded
  · simpa [finalize, hr] using h
  · have h0 := h.1 (by simpa using hr)
    simp [finalize, hr, respInv, h0]

/-- Cleanup touches neither the responded flag nor the response log. -/
theorem cleanupLocal_respInv (s : StartReqState) (h : respInv s) :
    respInv (cleanupLocal s) := by
  by_cases hr : s.registered <;> simpa [cleanupLocal, hr, respInv] using h

/-- Every event-loop step preserves the response-uniqueness invariant. -/
theorem stepStart_respInv (s : StartReqState) (e : StartEv) (h : respInv s) :
    respInv (stepStart s e) := by
  cases e with
  | pollTick =>
      by_cases h1 : s.pollArmed <;> by_cases h2 : s.playlistExists <;>
        simp only [stepStart, h1, h2, if_true, if_false]
      · exact finalize_respInv _ _ h
      all_goals exact h
  | procError => exact finalize_respInv _ _ (cleanupLocal_respInv s h)
  | procEnd => exact finalize_respInv _ _ (cleanupLocal_respInv s h)
  | deadline =>
      by_cases hd : s.deadlineArmed <;> simp only [stepStart, hd, if_true, if_false]
      · exact finalize_respInv _ _ (cleanupLocal_respInv s h)
      · exact h
  | stopReq =>
      by_cases hr : s.registered <;>
        simpa [stepStart, cleanupLocal, hr, respInv] using h
  | manifestAppears =>
      by_cases h1 : s.dirExists && s.processAlive <;>
        simpa [stepStart, h1, respInv] using h

/-- The response-uniqueness invariant holds along any event sequence. -/
theorem runStart_respInv (evs : List StartEv) :
    ∀ s : StartReqState, respInv s → respInv (runStart s evs) := by
  induction evs with
  | nil => intro s h; exact h
  | cons e t ih =>
      intro s h
      exact ih _ (stepStart_respInv s e h)

/-- C1: among the four racing triggers of a start request (poll observing
readiness, process error, process end, startup deadline), whichever fires
first produces the request's single response — later triggers are
response no-ops — and over every event interleaving the response callback
runs at most once, so with at least one trigger it runs exactly once with
exactly one outcome. -/
theorem c1_exactly_once_resolution :
    (∀ (e : StartEv) (ts : List StartEv),
        e = .pollTick ∨ e = .procError ∨ e = .procEnd ∨ e = .deadline →
        (runStart (initStart true) (e :: ts)).responses = [trigOutcome e]) ∧
    (∀ (m : Bool) (evs : List StartEv),
        (runStart (initStart m) evs).responses.length ≤ 1) := by
  constructor
  · intro e ts he
    have hstep : (stepStart (initStart true) e).responses = [trigOutcome e] ∧
        (stepStart (initStart true) e).responded = true := by
      rcases he with rfl | rfl | rfl | rfl <;> exact (by decide)
    have hrun : runStart (initStart true) (e :: ts)
        = runStart (stepStart (initStart true) e) ts := rfl
    rw [hrun, runStart_responded ts _ hstep.2, hstep.1]
  · intro m evs
    have h0 : respInv (initStart m) := ⟨fun _ => rfl, by simp [initStart]⟩
    exact (runStart_respInv evs _ h0).2

/-- Witness for C1: a concrete interleaving where the deadline fires
first, then the process error event and a poll tick; exactly the timeout
response is sent. -/
theorem c1_exactly_once_resolution_witness :
    (runStart (initStart true) [.deadline, .procError, .pollTick]).responses
      = [.timedOut] := by
  have h := c1_exactly_once_resolution.1 .deadline [.procError, .pollTick]
    (Or.inr (Or.inr (Or.inr rfl)))
  exact h

/-- Counterexample for C2: a stop request on a session still in the
Starting state completes (success sent, session deregistered) with the
poll interval and the startup deadline both still armed, and the deadline
callback then actually fires, even sending the start request's response. -/
theorem c2_counterexample :
    (stepStart (initStart false) .stopReq).stopResponses = [.success] ∧
    (stepStart (initStart false) .stopReq).registered = false ∧
    (stepStart (initStart false) .stopReq).pollArmed = true ∧
    (stepStart (initStart false) .stopReq).deadlineArmed = true ∧
    (runStart (initStart false) [.stopReq, .deadline]).responses = [.timedOut] := by
  decide

/-- C2 as amended: stopping a Starting session terminates the process and
evicts the session but leaves the poll and deadline timers armed; the
timers are cleared only when a finalizing trigger (process error, process
end, or the deadline itself) later fires on the still-pending start
request. -/
theorem c2_stop_leaves_timers_armed :
    ((stepStart (initStart false) .stopReq).pollArmed = true ∧
     (stepStart (initStart false) .stopReq).deadlineArmed = true ∧
     (stepStart (initStart false) .stopReq).processAlive = false ∧
     (stepStart (initStart false) .stopReq).registered = false) ∧
    ((runStart (initStart false) [.stopReq, .procError]).pollArmed = false ∧
     (runStart (initStart false) [.stopReq, .procError]).deadlineArmed = false) ∧
    ((runStart (initStart false) [.stopReq, .procEnd]).pollArmed = false ∧
     (runStart (initStart false) [.stopReq, .procEnd]).deadlineArmed = false) ∧
    ((runStart (initStart false) [.stopReq, .deadline]).pollArmed = false ∧
     (runStart (initStart false) [.stopReq, .deadline]).deadlineArmed = false) := by
  decide

/-- C3: on a record that already has non-empty label and notes,
`upsertSavedStream` with empty, whitespace-only or non-string
label/notes (anything sanitizing to empty) keeps label and notes but
refreshes lastStreamId and lastStartedAt; `updateMetadataOnly` with empty
strings on the same record overwrites label and notes to empty. -/
theorem c3_upsert_keeps_update_overwrites :
    ∀ (pre post : List SavedStream) (r : SavedStream) (u sid now : String)
      (ml mn : JSVal),
      (∀ q ∈ pre, q.rtspUrl ≠ u) → r.rtspUrl = u →
      r.label ≠ [] → r.notes ≠ [] →
      sanitizeText ml 60 = [] → sanitizeText mn 280 = [] →
      upsertSavedStream u sid now ml mn (pre ++ r :: post) =
        pre ++ { r with lastStreamId := some sid, lastStartedAt := some now } :: post ∧
      updateMetadataOnly u (.jsStr []) (.jsStr []) (pre ++ r :: post) =
        pre ++ { r with label := [], notes := [] } :: post := by
  intro pre
  induction pre with
  | nil =>
      intro post r u sid now ml mn _ hr _ _ hml hmn
      constructor
      · simp [upsertSavedStream, hr, hml, hmn]
      · simp [updateMetadataOnly, hr, sanitizeText_emptyStr]
  | cons q t ih =>
      intro post r u sid now ml mn hpre hr hl hn hml hmn
      have hq : q.rtspUrl ≠ u := hpre q (by simp)
      have ht : ∀ x ∈ t, x.rtspUrl ≠ u := fun x hx => hpre x (by simp [hx])
      have hih := ih post r u sid now ml mn ht hr hl hn hml hmn
      constructor
      · simp [upsertSavedStream, hq, hih.1]
      · simp [updateMetadataOnly, hq, hih.2]

/-- Witness for C3 at a concrete store: a record with label "cam" and
notes "yard", upserted with a whitespace-only label and a numeric notes
value, keeps both texts and refreshes the session fields; the metadata
update with empty strings blanks both. -/
theorem c3_upsert_keeps_update_overwrites_witness :
    upsertSavedStream "u" "s2" "t2" (.jsStr [' ', ' ']) (.jsNum 7)
        [{ rtspUrl := "u", lastStreamId := some "s1", lastStartedAt := some "t1",
           label := "cam".data, notes := "yard".data, screenshots := [] }] =
      [{ rtspUrl := "u", lastStreamId := some "s2", lastStartedAt := some "t2",
         label := "cam".data, notes := "yard".data, screenshots := [] }] ∧
    updateMetadataOnly "u" (.jsStr []) (.jsStr [])
        [{ rtspUrl := "u", lastStreamId := some "s1", lastStartedAt := some "t1",
           label := "cam".data, notes := "yard".data, screenshots := [] }] =
      [{ rtspUrl := "u", lastStreamId := some "s1", lastStartedAt := some "t1",
         label := [], notes := [], screenshots := [] }] := by
  have h := c3_upsert_keeps_update_overwrites [] []
    { rtspUrl := "u", lastStreamId := some "s1", lastStartedAt := some "t1",
      label := "cam".data, notes := "yard".data, screenshots := [] }
    "u" "s2" "t2" (.jsStr [' ', ' ']) (.jsNum 7)
    (by simp) rfl (by decide) (by decide) (by decide) (by decide)
  exact ⟨by simpa using h.1, by simpa using h.2⟩

/-- C4: `addScreenshotRecord` prepends the new screenshot and truncates
to 20 (the truncation is literally `take 20`); it preserves the at-most-20
invariant across the whole store on every call; and 25 successive calls on
an empty store leave exactly one record with exactly the 20 newest
screenshots, newest first, the 5 oldest evicted. -/
theorem c4_screenshot_prepend_cap :
    (∀ l : List ScreenshotRecord, capScreenshots l = l.take 20) ∧
    (∀ (pre post : List SavedStream) (r : SavedStream) (u sid fn now : String),
        (∀ q ∈ pre, q.rtspUrl ≠ u) → r.rtspUrl = u →
        addScreenshotRecord u sid fn now (pre ++ r :: post) =
          pre ++ { r with screenshots :=
            ({ fileName := fn, capturedAt := now } :: r.screenshots).take 20 } :: post) ∧
    (∀ (u sid fn now : String) (st : List SavedStream),
        screensBounded st = true →
        screensBounded (addScreenshotRecord u sid fn now st) = true) ∧
    iter25 =
      [{ rtspUrl := "rtsp://cam", lastStreamId := some "sid",
         lastStartedAt := some "0", label := [], notes := [],
         screenshots := ((List.range 25).reverse.take 20).map
           (fun i => { fileName := Nat.repr i, capturedAt := Nat.repr i }) }] ∧
    iter25.map (fun r => r.screenshots.length) = [20] := by
  refine ⟨capScreenshots_eq_take, ?_, ?_, by decide, by decide⟩
  · intro pre
    induction pre with
    | nil =>
        intro post r u sid fn now _ hr
        simp [addScreenshotRecord, hr, capScreenshots_eq_take]
    | cons q t ih =>
        intro post r u sid fn now hpre hr
        have hq : q.rtspUrl ≠ u := hpre q (by simp)
        have ht : ∀ x ∈ t, x.rtspUrl ≠ u := fun x hx => hpre x (by simp [hx])
        simp [addScreenshotRecord, hq, ih post r u sid fn now ht hr]
  · intro u sid fn now st
    induction st with
    | nil =>
        intro _
        simp [addScreenshotRecord, screensBounded, capScreenshots]
    | cons r t ih =>
        intro h
        rw [screensBounded, List.all_cons, Bool.and_eq_true] at h
        by_cases hq : r.rtspUrl = u
        · simp only [addScreenshotRecord, hq, if_true]
          rw [screensBounded, List.all_cons, Bool.and_eq_true]
          exact ⟨by simpa using capScreenshots_length_le _, h.2⟩
        · simp only [addScreenshotRecord, hq, if_false]
          rw [screensBounded, List.all_cons, Bool.and_eq_true]
          exact ⟨h.1, ih h.2⟩

/-- Witness for C4 on a concrete store: appending to a record with one
screenshot prepends the new one, and the bound is preserved. -/
theorem c4_screenshot_prepend_cap_witness :
    addScreenshotRecord "u" "s" "f2" "t2"
        [{ rtspUrl := "u", lastStreamId := some "s", lastStartedAt := some "t1",
           label := [], notes := [],
           screenshots := [{ fileName := "f1", capturedAt := "t1" }] }] =
      [{ rtspUrl := "u", lastStreamId := some "s", lastStartedAt := some "t1",
         label := [], notes := [],
         screenshots := [{ fileName := "f2", capturedAt := "t2" },
                         { fileName := "f1", capturedAt := "t1" }] }] ∧
    screensBounded (addScreenshotRecord "u" "s" "f2" "t2"
        [{ rtspUrl := "u", lastStreamId := some "s", lastStartedAt := some "t1",
           label := [], notes := [],
           screenshots := [{ fileName := "f1", capturedAt := "t1" }] }]) = true := by
  constructor
  · have h := c4_screenshot_prepend_cap.2.1 [] []
      { rtspUrl := "u", lastStreamId := some "s", lastStartedAt := some "t1",
        label := [], notes := [],
        screenshots := [{ fileName := "f1", capturedAt := "t1" }] }
      "u" "s" "f2" "t2" (by simp) rfl
    simpa using h
  · exact c4_screenshot_prepend_cap.2.2.1 "u" "s" "f2" "t2"
      [{ rtspUrl := "u", lastStreamId := some "s", lastStartedAt := some "t1",
         label := [], notes := [],
         screenshots := [{ fileName := "f1", capturedAt := "t1" }] }] (by decide)

/-- C5: stopping an unknown session id answers NotFound and leaves the
whole server state (registry, filesystem facts, metadata store)
untouched; stopping a registered session answers success, removes it from
the active map and removes its work directory, and a second stop on the
same id answers NotFound without further mutation. -/
theorem c5_stop_semantics :
    (∀ (sid : String) (st : ServerState),
        mapGet st.active sid = none → stopStreamRoute sid st = (st, .notFound)) ∧
    (∀ (sid : String) (st : ServerState),
        (mapGet st.active sid).isSome = true →
        (stopStreamRoute sid st).2 = .success ∧
        mapGet (stopStreamRoute sid st).1.active sid = none ∧
        sid ∉ (stopStreamRoute sid st).1.dirs ∧
        stopStreamRoute sid (stopStreamRoute sid st).1 =
          ((stopStreamRoute sid st).1, .notFound)) := by
  constructor
  · intro sid st h
    simp [stopStreamRoute, h]
  · intro sid st h
    rcases Option.isSome_iff_exists.1 h with ⟨info, hinfo⟩
    have hroute : stopStreamRoute sid st = (cleanupStream sid st, .success) := by
      simp [stopStreamRoute, h]
    have hclean : cleanupStream sid st =
        { st with
          active := st.active.filter (fun p => p.1 != sid)
          dirs := st.dirs.filter (fun d => d != sid)
          playlists := st.playlists.filter (fun d => d != sid) } := by
      simp [cleanupStream, hinfo]
    have hgone : mapGet (cleanupStream sid st).active sid = none := by
      rw [hclean]
      exact mapGet_filter_ne st.active sid
    refine ⟨by simp [hroute], by simp [hroute, hgone], ?_, ?_⟩
    · rw [hroute]
      simp only [hclean]
      exact not_mem_filter_ne st.dirs sid
    · rw [hroute]
      simp [stopStreamRoute, hgone]

/-- Witness for C5 on a concrete one-session registry: the unknown id
"x" is a pure NotFound, and stopping "a" evicts it, removes its
directory, and makes a second stop NotFound. -/
theorem c5_stop_semantics_witness :
    stopStreamRoute "x"
        { active := [("a", { rtspUrl := "u" })], dirs := ["a"],
          playlists := ["a"], saved := [] } =
      ({ active := [("a", { rtspUrl := "u" })], dirs := ["a"],
         playlists := ["a"], saved := [] }, .notFound) ∧
    (stopStreamRoute "a"
        { active := [("a", { rtspUrl := "u" })], dirs := ["a"],
          playlists := ["a"], saved := [] }).2 = .success ∧
    mapGet (stopStreamRoute "a"
        { active := [("a", { rtspUrl := "u" })], dirs := ["a"],
          playlists := ["a"], saved := [] }).1.active "a" = none := by
  refine ⟨c5_stop_semantics.1 "x" _ (by decide), ?_, ?_⟩
  · exact (c5_stop_semantics.2 "a"
      { active := [("a", { rtspUrl := "u" })], dirs := ["a"],
        playlists := ["a"], saved := [] } (by decide)).1
  · exact (c5_stop_semantics.2 "a"
      { active := [("a", { rtspUrl := "u" })], dirs := ["a"],
        playlists := ["a"], saved := [] } (by decide)).2.1

/-- C6: the screenshot route answers NotFound for an unknown id, NotReady
for a registered session whose playlist does not exist yet, and
CaptureFailed when the extraction process fails, and in all three failure
cases the server state — in particular the metadata store — is completely
unchanged. -/
theorem c6_capture_failures_no_mutation :
    (∀ (sid ts now : String) (ok : Bool) (st : ServerState),
        mapGet st.active sid = none →
        screenshotRoute sid ts now ok st = (st, .notFound)) ∧
    (∀ (sid ts now : String) (ok : Bool) (st : ServerState) (info : StreamInfo),
        mapGet st.active sid = some info → sid ∉ st.playlists →
        screenshotRoute sid ts now ok st = (st, .notReady)) ∧
    (∀ (sid ts now : String) (st : ServerState) (info : StreamInfo),
        mapGet st.active sid = some info → sid ∈ st.playlists →
        screenshotRoute sid ts now false st = (st, .captureFailed)) := by
  refine ⟨?_, ?_, ?_⟩
  · intro sid ts now ok st h
    simp [screenshotRoute, h]
  · intro sid ts now ok st info h hp
    simp [screenshotRoute, h, hp]
  · intro sid ts now st info h hp
    simp [screenshotRoute, h, hp]

/-- Witness for C6 on a concrete registry: unknown id, registered id
without playlist, and registered id with playlist but failing extraction
all leave the state untouched with the right error. -/
theorem c6_capture_failures_no_mutation_witness :
    screenshotRoute "x" "ts" "now" true
        { active := [("a", { rtspUrl := "u" })], dirs := ["a"],
          playlists := [], saved := [] } =
      ({ active := [("a", { rtspUrl := "u" })], dirs := ["a"],
         playlists := [], saved := [] }, .notFound) ∧
    screenshotRoute "a" "ts" "now" true
        { active := [("a", { rtspUrl := "u" })], dirs := ["a"],
          playlists := [], saved := [] } =
      ({ active := [("a", { rtspUrl := "u" })], dirs := ["a"],
         playlists := [], saved := [] }, .notReady) ∧
    screenshotRoute "a" "ts" "now" false
        { active := [("a", { rtspUrl := "u" })], dirs := ["a"],
          playlists := ["a"], saved := [] } =
      ({ active := [("a", { rtspUrl := "u" })], dirs := ["a"],
         playlists := ["a"], saved := [] }, .captureFailed) := by
  refine ⟨?_, ?_, ?_⟩
  · exact c6_capture_failures_no_mutation.1 "x" "ts" "now" true _ (by decide)
  · exact c6_capture_failures_no_mutation.2.1 "a" "ts" "now" true _
      { rtspUrl := "u" } (by decide) (by decide)
  · exact c6_capture_failures_no_mutation.2.2 "a" "ts" "now" _
      { rtspUrl := "u" } (by decide) (by decide)

/-- C7: session cleanup is idempotent — running `cleanupStream` twice on
the same id equals running it once, and running it on an id that is not
registered (never was, or already cleaned up) changes nothing; likewise
`terminate` on an already-exited process handle is a no-op and never an
error (it is a total function). -/
theorem c7_cleanup_idempotent :
    (∀ (sid : String) (st : ServerState),
        cleanupStream sid (cleanupStream sid st) = cleanupStream sid st) ∧
    (∀ (sid : String) (st : ServerState),
        mapGet st.active sid = none → cleanupStream sid st = st) ∧
    (∀ p : ProcState, terminate (terminate p) = terminate p) ∧
    terminate .exited = .exited := by
  have hnone : ∀ (sid : String) (st : ServerState),
      mapGet st.active sid = none → cleanupStream sid st = st := by
    intro sid st h
    simp [cleanupStream, h]
  refine ⟨?_, hnone, ?_, rfl⟩
  · intro sid st
    cases hinfo : mapGet st.active sid with
    | none =>
        rw [hnone sid st hinfo]
        exact hnone sid st hinfo
    | some info =>
        have hclean : cleanupStream sid st =
            { st with
              active := st.active.filter (fun p => p.1 != sid)
              dirs := st.dirs.filter (fun d => d != sid)
              playlists := st.playlists.filter (fun d => d != sid) } := by
          simp [cleanupStream, hinfo]
        apply hnone
        rw [hclean]
        exact mapGet_filter_ne st.active sid
  · intro p
    cases p <;> rfl

/-- Witness for C7: double cleanup of a concrete registered session
equals single cleanup, and cleanup of an absent id is the identity. -/
theorem c7_cleanup_idempotent_witness :
    cleanupStream "a" (cleanupStream "a"
        { active := [("a", { rtspUrl := "u" })], dirs := ["a"],
          playlists := ["a"], saved := [] }) =
      cleanupStream "a"
        { active := [("a", { rtspUrl := "u" })], dirs := ["a"],
          playlists := ["a"], saved := [] } ∧
    cleanupStream "x"
        { active := [("a", { rtspUrl := "u" })], dirs := ["a"],
          playlists := ["a"], saved := [] } =
      { active := [("a", { rtspUrl := "u" })], dirs := ["a"],
        playlists := ["a"], saved := [] } := by
  constructor
  · exact c7_cleanup_idempotent.1 "a" _
  · exact c7_cleanup_idempotent.2.1 "x" _ (by decide)

/-- A trimmed string starts with a non-whitespace character. -/
theorem jsTrim_head_not_ws (s : List Char) (c : Char) (cs : List Char)
    (h : jsTrim s = c :: cs) : c.isWhitespace = false := by
  unfold jsTrim at h
  exact dropWhile_head_false _ _ _ _ h

/-- A whitespace-only string sanitizes to the empty string. -/
theorem sanitizeText_ws_only (s : List Char) (n : Nat)
    (hws : ∀ c ∈ s, c.isWhitespace = true) :
    sanitizeText (.jsStr s) n = [] := by
  have h1 : s.reverse.dropWhile Char.isWhitespace = [] :=
    List.dropWhile_eq_nil_iff.2 (fun x hx => hws x (List.mem_reverse.1 hx))
  have h2 : jsTrim s = [] := by
    unfold jsTrim
    rw [h1]
    rfl
  simp [sanitizeText, h2]

/-- C8: sanitized text never exceeds the 60/280 bounds, every metadata
mutation (upsert on start, metadata-only update, screenshot append)
preserves store-wide boundedness of all stored labels and notes, and an
over-long label or notes value never causes the update route to reject
(only a missing URL is rejected). -/
theorem c8_label_notes_bounded :
    (∀ (v : JSVal) (n : Nat), (sanitizeText v n).length ≤ n) ∧
    (∀ (u sid now : String) (ml mn : JSVal) (st : List SavedStream),
        labelNotesBounded st = true →
        labelNotesBounded (upsertSavedStream u sid now ml mn st) = true) ∧
    (∀ (u : String) (ml mn : JSVal) (st : List SavedStream),
        labelNotesBounded st = true →
        labelNotesBounded (updateMetadataOnly u ml mn st) = true) ∧
    (∀ (u sid fn now : String) (st : List SavedStream),
        labelNotesBounded st = true →
        labelNotesBounded (addScreenshotRecord u sid fn now st) = true) ∧
    (∀ (u : String) (ml mn : JSVal) (st : List SavedStream),
        u ≠ "" → (savedStreamsUpdateRoute u ml mn st).2 = .success) := by
  refine ⟨sanitizeText_length_le, ?_, ?_, ?_, ?_⟩
  · intro u sid now ml mn st
    induction st with
    | nil =>
        intro _
        simp only [upsertSavedStream, labelNotesBounded, List.all_cons,
          List.all_nil, Bool.and_true, Bool.and_eq_true, decide_eq_true_eq]
        exact ⟨sanitizeText_length_le ml 60, sanitizeText_length_le mn 280⟩
    | cons r t ih =>
        intro h
        simp only [labelNotesBounded, List.all_cons, Bool.and_eq_true,
          decide_eq_true_eq] at h
        by_cases hq : r.rtspUrl = u
        · simp only [upsertSavedStream]
          rw [if_pos hq]
          simp only [labelNotesBounded, List.all_cons, Bool.and_eq_true,
            decide_eq_true_eq]
          refine ⟨⟨?_, ?_⟩, h.2⟩
          · by_cases hc : sanitizeText ml 60 = []
            · simpa [hc] using h.1.1
            · simpa [hc] using sanitizeText_length_le ml 60
          · by_cases hc : sanitizeText mn 280 = []
            · simpa [hc] using h.1.2
            · simpa [hc] using sanitizeText_length_le mn 280
        · simp only [upsertSavedStream]
          rw [if_neg hq]
          simp only [labelNotesBounded, List.all_cons, Bool.and_eq_true,
            decide_eq_true_eq]
          exact ⟨h.1, ih h.2⟩
  · intro u ml mn st
    induction st with
    | nil =>
        intro _
        simp only [updateMetadataOnly, labelNotesBounded, List.all_cons,
          List.all_nil, Bool.and_true, Bool.and_eq_true, decide_eq_true_eq]
        exact ⟨sanitizeText_length_le ml 60, sanitizeText_length_le mn 280⟩
    | cons r t ih =>
        intro h
        simp only [labelNotesBounded, List.all_cons, Bool.and_eq_true,
          decide_eq_true_eq] at h
        by_cases hq : r.rtspUrl = u
        · simp only [updateMetadataOnly]
          rw [if_pos hq]
          simp only [labelNotesBounded, List.all_cons, Bool.and_eq_true,
            decide_eq_true_eq]
          exact ⟨⟨sanitizeText_length_le ml 60, sanitizeText_length_le mn 280⟩, h.2⟩
        · simp only [updateMetadataOnly]
          rw [if_neg hq]
          simp only [labelNotesBounded, List.all_cons, Bool.and_eq_true,
            decide_eq_true_eq]
          exact ⟨h.1, ih h.2⟩
  · intro u sid fn now st
    induction st with
    | nil =>
        intro _
        simp [addScreenshotRecord, labelNotesBounded]
    | cons r t ih =>
        intro h
        simp only [labelNotesBounded, List.all_cons, Bool.and_eq_true,
          decide_eq_true_eq] at h
        by_cases hq : r.rtspUrl = u
        · simp only [addScreenshotRecord]
          rw [if_pos hq]
          simp only [labelNotesBounded, List.all_cons, Bool.and_eq_true,
            decide_eq_true_eq]
          exact ⟨h.1, h.2⟩
        · simp only [addScreenshotRecord]
          rw [if_neg hq]
          simp only [labelNotesBounded, List.all_cons, Bool.and_eq_true,
            decide_eq_true_eq]
          exact ⟨h.1, ih h.2⟩
  · intro u ml mn st hu
    simp [savedStreamsUpdateRoute, hu]

/-- Witness for C8: a 70-character label and a 300-character notes value
are truncated to the bounds in a fresh upsert, and the update route
accepts them. -/
theorem c8_label_notes_bounded_witness :
    (sanitizeText (.jsStr (List.replicate 70 'a')) 60).length ≤ 60 ∧
    labelNotesBounded (upsertSavedStream "u" "s" "t"
        (.jsStr (List.replicate 70 'a')) (.jsStr (List.replicate 300 'b')) []) = true ∧
    (savedStreamsUpdateRoute "u" (.jsStr (List.replicate 70 'a'))
        (.jsStr (List.replicate 300 'b')) []).2 = .success := by
  refine ⟨c8_label_notes_bounded.1 (.jsStr (List.replicate 70 'a')) 60, ?_, ?_⟩
  · exact c8_label_notes_bounded.2.1 "u" "s" "t"
      (.jsStr (List.replicate 70 'a')) (.jsStr (List.replicate 300 'b')) []
      (by decide)
  · exact c8_label_notes_bounded.2.2.2.2 "u"
      (.jsStr (List.replicate 70 'a')) (.jsStr (List.replicate 300 'b')) []
      (by decide)

/-- C9: `loadSavedStreams` yields the empty list when the durable file is
missing, when reading or parsing it throws, and when the parsed JSON is
not an array; it is a total function, and even a malformed array element
(whose property reads throw inside the mapping) is caught and yields the
empty list. -/
theorem c9_load_never_fails :
    loadSavedStreams .missing = [] ∧
    loadSavedStreams .corrupt = [] ∧
    (∀ v : JVal, (∀ l : List JVal, v ≠ .arr l) → loadSavedStreams (.json v) = []) ∧
    loadSavedStreams (.json (.arr [.null])) = [] := by
  refine ⟨rfl, rfl, ?_, rfl⟩
  intro v hv
  cases v with
  | jsu => rfl
  | null => rfl
  | bool b => rfl
  | num n => rfl
  | str s => rfl
  | arr l => exact absurd rfl (hv l)
  | obj o => rfl

/-- Witness for C9: a parsed JSON string (not an array) loads as the
empty list. -/
theorem c9_load_never_fails_witness :
    loadSavedStreams (.json (.str "oops")) = [] :=
  c9_load_never_fails.2.2.1 (.str "oops") (fun _ h => JVal.noConfusion h)

/-- Counterexample for C10: `sanitizeText` trims before truncating, so a
62-character label whose 60th character is an interior space is stored
with a trailing space — stored labels can carry (trailing) surrounding
whitespace, contrary to the claim. -/
theorem c10_counterexample :
    Char.isWhitespace ' ' = true ∧
    (sanitizeText (.jsStr overlongLabel) 60).getLast? = some ' ' ∧
    (updateMetadataOnly "u" (.jsStr overlongLabel) (.jsStr []) []).map
        (fun r => r.label.getLast?) = [some ' '] := by
  decide

/-- C10 as amended: sanitization accepts any input value — every
non-string becomes the empty string, a string is trimmed and then
truncated to the bound — the result never carries leading whitespace, and
a whitespace-only value counts as empty (so it does not overwrite a label
on upsert); trailing whitespace, however, can survive when truncation
cuts just after an interior space. -/
theorem c10_sanitize_shape :
    (∀ n : Nat, sanitizeText .jsUndefined n = [] ∧ sanitizeText .jsNull n = []) ∧
    (∀ (b : Bool) (i : Int) (n : Nat),
        sanitizeText (.jsBool b) n = [] ∧ sanitizeText (.jsNum i) n = []) ∧
    (∀ (s : List Char) (n : Nat),
        sanitizeText (.jsStr s) n =
          if (jsTrim s).length > n then (jsTrim s).take n else jsTrim s) ∧
    (∀ (v : JSVal) (n : Nat) (c : Char) (cs : List Char),
        sanitizeText v n = c :: cs → c.isWhitespace = false) ∧
    (∀ (s : List Char) (n : Nat),
        (∀ c ∈ s, c.isWhitespace = true) → sanitizeText (.jsStr s) n = []) ∧
    (∀ (u sid now : String) (s : List Char) (mn : JSVal)
        (r : SavedStream) (rest : List SavedStream),
        r.rtspUrl = u → (∀ c ∈ s, c.isWhitespace = true) →
        (upsertSavedStream u sid now (.jsStr s) mn (r :: rest)).map (fun q => q.label)
          = (r :: rest).map (fun q => q.label)) := by
  refine ⟨fun n => ⟨rfl, rfl⟩, fun b i n => ⟨rfl, rfl⟩, fun s n => rfl, ?_,
    sanitizeText_ws_only, ?_⟩
  · intro v n c cs h
    cases v with
    | jsUndefined => exact absurd h (by simp [sanitizeText])
    | jsNull => exact absurd h (by simp [sanitizeText])
    | jsBool b => exact absurd h (by simp [sanitizeText])
    | jsNum i => exact absurd h (by simp [sanitizeText])
    | jsStr s =>
        rw [sanitizeText] at h
        by_cases hc : (jsTrim s).length > n
        · rw [if_pos hc] at h
          have hh := take_head _ _ _ _ h
          cases hjt : jsTrim s with
          | nil => rw [hjt] at hh; simp at hh
          | cons a t =>
              rw [hjt] at hh
              simp only [List.head?_cons, Option.some.injEq] at hh
              rw [hh] at hjt
              exact jsTrim_head_not_ws s c t hjt
        · rw [if_neg hc] at h
          exact jsTrim_head_not_ws s c cs h
  · intro u sid now s mn r rest hr hws
    have h0 : sanitizeText (.jsStr s) 60 = [] := sanitizeText_ws_only s 60 hws
    simp [upsertSavedStream, hr, h0]

/-- Witness for C10 as amended: a concrete mixed-whitespace string keeps
a non-whitespace head, a whitespace-only string sanitizes to empty, and a
whitespace-only upsert keeps a concrete record's label. -/
theorem c10_sanitize_shape_witness :
    Char.isWhitespace 'h' = false ∧
    sanitizeText (.jsStr [' ', '\t', ' ']) 60 = [] ∧
    (upsertSavedStream "u" "s2" "t2" (.jsStr [' ', ' ']) .jsNull
        [{ rtspUrl := "u", lastStreamId := some "s1", lastStartedAt := some "t1",
           label := "cam".data, notes := [], screenshots := [] }]).map
        (fun q => q.label) = ["cam".data] := by
  refine ⟨?_, ?_, ?_⟩
  · exact c10_sanitize_shape.2.2.2.1 (.jsStr (' ' :: 'h' :: 'i' :: [])) 60 'h' ['i']
      (by decide)
  · exact c10_sanitize_shape.2.2.2.2.1 [' ', '\t', ' '] 60 (by decide)
  · have h := c10_sanitize_shape.2.2.2.2.2 "u" "s2" "t2" [' ', ' '] .jsNull
      { rtspUrl := "u", lastStreamId := some "s1", lastStartedAt := some "t1",
        label := "cam".data, notes := [], screenshots := [] } [] rfl (by decide)
    simpa using h

end RTSPDeck
